import Mathlib

/-!
Verification of the core logic of `generate_pokedex.py`: streak calculation,
derived-percentage arithmetic, fixed-width box layout, the stat-bar renderer,
and the card crossfade animation timing.

Modelling conventions:
* A calendar date is an integer (days on a linear timeline); `today` is a
  parameter (the Python code reads the system clock).
* Python strings are modelled as `List Char`.
* Python `int(x)` truncation of non-negative quotients is exact flooring,
  modelled with `Nat` division (`a * k / b`); `float` division is modelled by
  exact rational arithmetic.
-/

namespace Pokedex

/-- One day of the contribution calendar: a date and a contribution count. -/
structure Day where
  date : Int
  count : Nat
deriving DecidableEq, Repr

/-- Chronologically sorted with no duplicate dates: strictly ascending dates. -/
def Chrono (days : List Day) : Prop :=
  days.Pairwise (fun a b => a.date < b.date)

instance (days : List Day) : Decidable (Chrono days) := by
  unfold Chrono
  exact List.instDecidablePairwise days

/-- The backward walk of `calculate_streaks` over `reversed(contribution_days)`:
state is the `found_today` flag and the accumulated `streak`; a zero-count day
after anchoring returns the streak (the Python `break`). -/
def currentStreakAux (today : Int) : List Day → Bool → Nat → Nat
  | [], _, streak => streak
  | day :: rest, found_today, streak =>
    if today < day.date then
      currentStreakAux today rest found_today streak
    else if day.date = today then
      currentStreakAux today rest true (if 0 < day.count then 1 else 0)
    else if found_today = true ∨ day.date = today - 1 then
      if 0 < day.count then currentStreakAux today rest true (streak + 1)
      else streak
    else
      currentStreakAux today rest found_today streak

/-- The forward scan of `calculate_streaks` computing the longest run of
consecutive positive-count entries. -/
def longestAux : List Day → Nat → Nat → Nat
  | [], _, longest => longest
  | day :: rest, streak, longest =>
    if 0 < day.count then longestAux rest (streak + 1) (max longest (streak + 1))
    else longestAux rest 0 longest

/-- `calculate_streaks(contribution_days)` from the source, with `today`
made an explicit parameter. Returns `(current_streak, longest_streak)`. -/
def calculate_streaks (today : Int) (contribution_days : List Day) : Nat × Nat :=
  let current_streak := currentStreakAux today contribution_days.reverse false 0
  let longest0 := longestAux contribution_days 0 0
  (current_streak, max longest0 current_streak)

example : calculate_streaks 0 [⟨-5, 0⟩, ⟨-4, 1⟩, ⟨-3, 2⟩, ⟨-2, 1⟩, ⟨-1, 3⟩, ⟨0, 1⟩] = (5, 5) := by
  decide

example : calculate_streaks 0 [⟨-1, 1⟩, ⟨0, 0⟩] = (1, 1) := by decide

example : calculate_streaks 0 [] = (0, 0) := by decide

example : Chrono [⟨-1, 1⟩, ⟨0, 0⟩] := by decide

/-- Entries dated strictly after `today` are skipped by the backward walk. -/
lemma currentStreakAux_future (today : Int) (l rest : List Day) (ft : Bool) (s : Nat)
    (hl : ∀ d ∈ l, today < d.date) :
    currentStreakAux today (l ++ rest) ft s = currentStreakAux today rest ft s := by
  induction l with
  | nil => rfl
  | cons d l ih =>
    have hd : today < d.date := hl d (by simp)
    simp only [List.cons_append, currentStreakAux, if_pos hd]
    exact ih fun x hx => hl x (by simp [hx])

/-- The entry dated `today` anchors the walk: the streak restarts at 1 or 0
according to today's count, and the walk continues. -/
lemma currentStreakAux_today (today : Int) (c : Nat) (rest : List Day) (ft : Bool) (s : Nat) :
    currentStreakAux today (⟨today, c⟩ :: rest) ft s
      = currentStreakAux today rest true (if 0 < c then 1 else 0) := by
  simp [currentStreakAux]

/-- Once anchored, a block of positive-count past entries adds its length to
the streak. -/
lemma currentStreakAux_posRun (today : Int) (m : List Day)
    (hm : ∀ d ∈ m, 0 < d.count ∧ d.date < today) (rest : List Day) (s : Nat) :
    currentStreakAux today (m ++ rest) true s
      = currentStreakAux today rest true (s + m.length) := by
  induction m generalizing s with
  | nil => simp
  | cons d m ih =>
    obtain ⟨hc, hd⟩ := hm d (by simp)
    have h1 : ¬ today < d.date := by omega
    have h2 : ¬ d.date = today := by omega
    simp only [List.cons_append, currentStreakAux, if_neg h1, if_neg h2, eq_self_iff_true,
      true_or, if_true, if_pos hc, List.append_eq]
    rw [ih (fun x hx => hm x (by simp [hx])) (s + 1)]
    congr 1
    simp only [List.length_cons]
    omega

/-- Once anchored, a zero-count past entry stops the walk and returns the
accumulated streak (the `break`). -/
lemma currentStreakAux_breakZero (today : Int) (d : Day) (rest : List Day) (s : Nat)
    (hdate : d.date < today) (hcount : d.count = 0) :
    currentStreakAux today (d :: rest) true s = s := by
  have h1 : ¬ today < d.date := by omega
  have h2 : ¬ d.date = today := by omega
  simp [currentStreakAux, h1, h2, hcount]

/-- The first component of `calculate_streaks` is the backward walk. -/
lemma calculate_streaks_fst (today : Int) (days : List Day) :
    (calculate_streaks today days).1 = currentStreakAux today days.reverse false 0 := rfl

/-- The returned longest streak dominates the returned current streak. -/
lemma calculate_streaks_le (today : Int) (days : List Day) :
    (calculate_streaks today days).1 ≤ (calculate_streaks today days).2 :=
  le_max_right _ _

/-- For a history of shape `pre ++ [zero day] ++ mid ++ [today entry] ++ suf`
(with `suf` strictly in the future), the positive entries of `mid` have
positive count and past dates. -/
lemma mid_mem_pos (today : Int) (K : Nat) (mid : List Day)
    (hmidlen : mid.length = K)
    (hmid : ∀ i (h : i < mid.length), (mid[i]).date = today - K + i ∧ 0 < (mid[i]).count) :
    ∀ d ∈ mid, 0 < d.count ∧ d.date < today := by
  intro d hd
  obtain ⟨i, hi, rfl⟩ := List.mem_iff_getElem.mp hd
  obtain ⟨h1, h2⟩ := hmid i hi
  refine ⟨h2, ?_⟩
  rw [h1]
  have hik : (i : Int) < (K : Int) := by exact_mod_cast hmidlen ▸ hi
  omega

/-- Shared computation: the backward walk over the decomposed history. -/
lemma current_streak_decomp (today : Int) (K : Nat) (c : Nat)
    (pre mid suf : List Day)
    (hmidlen : mid.length = K)
    (hmid : ∀ i (h : i < mid.length), (mid[i]).date = today - K + i ∧ 0 < (mid[i]).count)
    (hsuf : ∀ d ∈ suf, today < d.date) :
    (calculate_streaks today
        (pre ++ ⟨today - (K + 1), 0⟩ :: (mid ++ ⟨today, c⟩ :: suf))).1
      = (if 0 < c then 1 else 0) + K := by
  have hmid' := mid_mem_pos today K mid hmidlen hmid
  rw [calculate_streaks_fst]
  have hrev : (pre ++ ⟨today - (K + 1), 0⟩ :: (mid ++ (⟨today, c⟩ : Day) :: suf)).reverse
      = suf.reverse ++ (⟨today, c⟩ : Day)
          :: (mid.reverse ++ (⟨today - (K + 1), 0⟩ : Day) :: pre.reverse) := by
    simp
  rw [hrev]
  rw [currentStreakAux_future today suf.reverse _ _ _
    (fun d hd => hsuf d (List.mem_reverse.mp hd))]
  rw [currentStreakAux_today]
  rw [currentStreakAux_posRun today mid.reverse
    (fun d hd => hmid' d (List.mem_reverse.mp hd))]
  rw [currentStreakAux_breakZero today _ _ _ (by dsimp only; omega) rfl]
  simp [hmidlen]

/-- C5: a chronologically sorted, duplicate-free history whose most recent
in-range day is `today` with positive count, preceded by `K` consecutive
positive days and then a zero day, yields current streak `K + 1`, and the
returned longest streak is at least `K + 1`. -/
theorem current_streak_run_length (today : Int) (K : Nat) (c : Nat)
    (pre mid suf days : List Day)
    (hdays : days = pre ++ ⟨today - (K + 1), 0⟩ :: (mid ++ ⟨today, c⟩ :: suf))
    (hchrono : Chrono days)
    (hc : 0 < c)
    (hmidlen : mid.length = K)
    (hmid : ∀ i (h : i < mid.length), (mid[i]).date = today - K + i ∧ 0 < (mid[i]).count)
    (hsuf : ∀ d ∈ suf, today < d.date) :
    (calculate_streaks today days).1 = K + 1
      ∧ K + 1 ≤ (calculate_streaks today days).2 := by
  subst hdays
  have hcur := current_streak_decomp today K c pre mid suf hmidlen hmid hsuf
  rw [if_pos hc] at hcur
  have hle := calculate_streaks_le today
    (pre ++ ⟨today - (K + 1), 0⟩ :: (mid ++ ⟨today, c⟩ :: suf))
  rw [hcur] at hle
  exact ⟨by omega, by omega⟩

/-- Witness for C5: the spec's end-to-end scenario — today plus the four
preceding days positive, day six zero — gives current streak 5 and longest
at least 5. -/
theorem current_streak_run_length_witness :
    Chrono [⟨-5, 0⟩, ⟨-4, 1⟩, ⟨-3, 1⟩, ⟨-2, 1⟩, ⟨-1, 1⟩, ⟨0, 1⟩]
      ∧ (calculate_streaks 0 [⟨-5, 0⟩, ⟨-4, 1⟩, ⟨-3, 1⟩, ⟨-2, 1⟩, ⟨-1, 1⟩, ⟨0, 1⟩]).1 = 5
      ∧ 5 ≤ (calculate_streaks 0 [⟨-5, 0⟩, ⟨-4, 1⟩, ⟨-3, 1⟩, ⟨-2, 1⟩, ⟨-1, 1⟩, ⟨0, 1⟩]).2 :=
  ⟨by decide,
    current_streak_run_length 0 4 1 [] [⟨-4, 1⟩, ⟨-3, 1⟩, ⟨-2, 1⟩, ⟨-1, 1⟩] [] _
      rfl (by decide) (by decide) rfl (by decide) (by simp)⟩

/-- C1 counterexample: the history `[(today - 1, 1), (today, 0)]` is
chronologically sorted and duplicate-free, has an entry for today with count
0 and one consecutive prior positive day, yet the current streak is 1, not 0. -/
theorem today_zero_counts_yesterday_cex :
    Chrono [⟨-1, 1⟩, ⟨0, 0⟩]
      ∧ (calculate_streaks 0 [⟨-1, 1⟩, ⟨0, 0⟩]).1 = 1
      ∧ (calculate_streaks 0 [⟨-1, 1⟩, ⟨0, 0⟩]).1 ≠ 0 := by
  exact ⟨by decide, by decide, by decide⟩

/-- C1 amended: when today's entry has count 0, the walk restarts the streak
at 0 and continues from yesterday, so the current streak equals the number
`K` of consecutive positive days immediately preceding today (bounded by a
zero day) rather than 0. -/
theorem today_zero_skips_to_yesterday (today : Int) (K : Nat)
    (pre mid suf days : List Day)
    (hdays : days = pre ++ ⟨today - (K + 1), 0⟩ :: (mid ++ ⟨today, 0⟩ :: suf))
    (hchrono : Chrono days)
    (hmidlen : mid.length = K)
    (hmid : ∀ i (h : i < mid.length), (mid[i]).date = today - K + i ∧ 0 < (mid[i]).count)
    (hsuf : ∀ d ∈ suf, today < d.date) :
    (calculate_streaks today days).1 = K := by
  subst hdays
  have hcur := current_streak_decomp today K 0 pre mid suf hmidlen hmid hsuf
  simpa using hcur

/-- Witness for the amended C1: today zero, yesterday positive, the day
before zero — current streak is 1 (the prior run's length), not 0. -/
theorem today_zero_skips_to_yesterday_witness :
    Chrono [⟨-2, 0⟩, ⟨-1, 1⟩, ⟨0, 0⟩]
      ∧ (calculate_streaks 0 [⟨-2, 0⟩, ⟨-1, 1⟩, ⟨0, 0⟩]).1 = 1 :=
  ⟨by decide,
    today_zero_skips_to_yesterday 0 1 [] [⟨-1, 1⟩] [] _
      rfl (by decide) rfl (by decide) (by simp)⟩

/-- C7: for every chronologically sorted, duplicate-free history, the
returned pair satisfies `longest_streak >= current_streak` (the second
component is `max` of the historical longest and the current streak). -/
theorem longest_ge_current (today : Int) (days : List Day) (_h : Chrono days) :
    (calculate_streaks today days).1 ≤ (calculate_streaks today days).2 :=
  calculate_streaks_le today days

/-- Witness for C7 at a concrete sorted history. -/
theorem longest_ge_current_witness :
    Chrono [⟨-1, 2⟩, ⟨0, 1⟩]
      ∧ (calculate_streaks 0 [⟨-1, 2⟩, ⟨0, 1⟩]).1 ≤ (calculate_streaks 0 [⟨-1, 2⟩, ⟨0, 1⟩]).2 :=
  ⟨by decide, longest_ge_current 0 [⟨-1, 2⟩, ⟨0, 1⟩] (by decide)⟩

/-! ### Derived statistics of `fetch_github_stats` and `generate_pokemon_svg` -/

/-- The last-30-days accumulation loop of `fetch_github_stats`:
`thirty_days_ago = today - timedelta(days=30)`, and a day contributes to
`(recent_activity, recent_commits)` when `thirty_days_ago <= date <= today`
and its count is positive. -/
def recentCounts (today : Int) (all_days : List Day) : Nat × Nat :=
  all_days.foldl
    (fun acc day =>
      if today - 30 ≤ day.date ∧ day.date ≤ today ∧ 0 < day.count
      then (acc.1 + 1, acc.2 + day.count)
      else acc)
    (0, 0)

/-- `open_issues = max(issues_opened - issues_closed, 0)`. -/
def open_issues (issues_opened issues_closed : Nat) : Int :=
  max ((issues_opened : Int) - (issues_closed : Int)) 0

/-- `issue_close_rate = min(int((issues_closed / max(issues_opened, 1)) * 100), 100)`. -/
def issue_close_rate (issues_opened issues_closed : Nat) : Nat :=
  min (issues_closed * 100 / max issues_opened 1) 100

/-- `streak_pct = min(int((current_streak / max(longest_streak, 1)) * 100), 100)`. -/
def streak_pct (current_streak longest_streak : Nat) : Nat :=
  min (current_streak * 100 / max longest_streak 1) 100

/-- `active_pct = int((days_active_month / 30) * 100)` — note: no clamp. -/
def active_pct (days_active_month : Nat) : Nat :=
  days_active_month * 100 / 30

/-- `snooze_pct = min(int((issues_open / max(issues_open + issues_closed, 1)) * 100), 100)`. -/
def snooze_pct (issues_open issues_closed : Nat) : Nat :=
  min (issues_open * 100 / max (issues_open + issues_closed) 1) 100

/-- `recent_pct = min(int((recent_commits / max(total_commits, 1)) * 100), 100)`. -/
def recent_pct (recent_commits total_commits : Nat) : Nat :=
  min (recent_commits * 100 / max total_commits 1) 100

/-- `merged_pct = min(int((prs_merged / max(prs_opened, 1)) * 100), 100)`. -/
def merged_pct (prs_merged prs_opened : Nat) : Nat :=
  min (prs_merged * 100 / max prs_opened 1) 100

/-- `opened_pct = min(int((prs_opened / max(prs_opened + 50, 1)) * 100), 100)`. -/
def opened_pct (prs_opened : Nat) : Nat :=
  min (prs_opened * 100 / max (prs_opened + 50) 1) 100

/-- `reviewed_pct = min(int((prs_reviewed / max(prs_reviewed + 50, 1)) * 100), 100)`. -/
def reviewed_pct (prs_reviewed : Nat) : Nat :=
  min (prs_reviewed * 100 / max (prs_reviewed + 50) 1) 100

/-- `commit_pct = min(int((total_commits / max(total_commits + 500, 1)) * 100), 100)`. -/
def commit_pct (total_commits : Nat) : Nat :=
  min (total_commits * 100 / max (total_commits + 500) 1) 100

/-- Natural-number division agrees with the rational floor of the exact
quotient; bridges the `int(...)` truncation to the embedding's `Nat` division. -/
lemma natCast_div_floor (a b : Nat) : ⌊(a : ℚ) / (b : ℚ)⌋₊ = a / b := by
  rw [Nat.floor_div_nat (a : ℚ) b, Nat.floor_natCast]

/-- A fully active 31-day window: one positive entry on each date in
`[0, 30]`, with `today = 30`. -/
def fullMonth : List Day := (List.range 31).map fun i => ⟨(i : Int), 1⟩

/-- The accumulator of the recent-activity fold counts matching entries. -/
lemma recentCounts_fold (today : Int) (all_days : List Day) :
    ∀ a b : Nat,
      (all_days.foldl
        (fun acc day =>
          if today - 30 ≤ day.date ∧ day.date ≤ today ∧ 0 < day.count
          then (acc.1 + 1, acc.2 + day.count)
          else acc)
        (a, b)).1
        = a + all_days.countP
            (fun day => decide (today - 30 ≤ day.date ∧ day.date ≤ today ∧ 0 < day.count)) := by
  induction all_days with
  | nil => intro a b; simp
  | cons d l ih =>
    intro a b
    by_cases hc : today - 30 ≤ d.date ∧ d.date ≤ today ∧ 0 < d.count
    · simp only [List.foldl_cons, if_pos hc]
      rw [ih (a + 1) (b + d.count), List.countP_cons,
        if_pos (show decide (today - 30 ≤ d.date ∧ d.date ≤ today ∧ 0 < d.count) = true from
          decide_eq_true hc)]
      omega
    · simp only [List.foldl_cons, if_neg hc]
      rw [ih a b, List.countP_cons,
        if_neg (show ¬ decide (today - 30 ≤ d.date ∧ d.date ≤ today ∧ 0 < d.count) = true from
          by simpa using hc)]
      omega

/-- C10: `days_active_month` (the `recent_activity` accumulator) counts the
days with positive count whose date lies in the inclusive window
`[today - 30, today]` — 31 calendar dates — and reaches 31 on a fully active
month, strictly exceeding the denominator 30 of the monthly-activity ratio. -/
theorem days_active_month_window :
    (∀ (today : Int) (all_days : List Day),
        (recentCounts today all_days).1
          = all_days.countP
              (fun day => decide (today - 30 ≤ day.date ∧ day.date ≤ today ∧ 0 < day.count)))
      ∧ (recentCounts 30 fullMonth).1 = 31
      ∧ 30 < (recentCounts 30 fullMonth).1 := by
  refine ⟨fun today all_days => ?_, by decide, by decide⟩
  rw [recentCounts, recentCounts_fold today all_days 0 0]
  exact Nat.zero_add _

/-- C2 counterexample: the aggregator produces `days_active_month = 31` on a
fully active month, and the monthly-activity percentage is then 103, not
clamped to [0, 100]. -/
theorem active_pct_unclamped_cex :
    (recentCounts 30 fullMonth).1 = 31
      ∧ active_pct 31 = 103
      ∧ ¬ active_pct 31 ≤ 100 :=
  ⟨by decide, by decide, by decide⟩

/-- C2 amended: every displayed percentage except the monthly-activity ratio
follows `min(int(num / max(den, 1) * 100), 100)` and hence lies within
[0, 100]; the monthly-activity ratio is the unclamped truncation
`int(days_active_month / 30 * 100)` and equals 103 at `days_active_month = 31`. -/
theorem displayed_pct_clamped_except_active :
    (∀ a b, streak_pct a b ≤ 100) ∧ (∀ a b, issue_close_rate a b ≤ 100)
      ∧ (∀ a b, snooze_pct a b ≤ 100) ∧ (∀ a b, recent_pct a b ≤ 100)
      ∧ (∀ a b, merged_pct a b ≤ 100) ∧ (∀ a, opened_pct a ≤ 100)
      ∧ (∀ a, reviewed_pct a ≤ 100) ∧ (∀ a, commit_pct a ≤ 100)
      ∧ (∀ a, active_pct a = ⌊(a : ℚ) / 30 * 100⌋₊)
      ∧ active_pct 31 = 103 := by
  refine ⟨fun a b => min_le_right _ _, fun a b => min_le_right _ _,
    fun a b => min_le_right _ _, fun a b => min_le_right _ _,
    fun a b => min_le_right _ _, fun a => min_le_right _ _,
    fun a => min_le_right _ _, fun a => min_le_right _ _,
    fun a => ?_, by decide⟩
  have hq : (a : ℚ) / 30 * 100 = ((a * 100 : ℕ) : ℚ) / ((30 : ℕ) : ℚ) := by
    push_cast
    ring
  rw [hq, natCast_div_floor]
  rfl

/-- C3 counterexample: the claim's formula `clamp(round(...), 0, 100)` with
rounding to nearest disagrees with the code's truncation at
`issues_opened = 3, issues_closed = 2`: the code yields 66, the formula 67. -/
def issue_close_rate_rounded (issues_opened issues_closed : Nat) : Nat :=
  min (max (round ((issues_closed : ℚ) / max (issues_opened : ℚ) 1 * 100)) 0).toNat 100

/-- C3 counterexample: at `issues_opened = 3, issues_closed = 2` the code
computes `int(200/3) = 66` while the claimed `clamp(round(200/3), 0, 100)`
is 67. -/
theorem issue_close_rate_trunc_not_round_cex :
    issue_close_rate 3 2 = 66
      ∧ issue_close_rate_rounded 3 2 = 67
      ∧ issue_close_rate 3 2 ≠ issue_close_rate_rounded 3 2 := by
  have h2 : issue_close_rate_rounded 3 2 = 67 := by
    have hm : ((2 : ℕ) : ℚ) / max ((3 : ℕ) : ℚ) 1 * 100 = 200 / 3 := by
      push_cast
      rw [max_eq_left (by norm_num : (1 : ℚ) ≤ 3)]
      ring
    have hr : round ((200 : ℚ) / 3) = 67 := by
      rw [round_eq, show (200 : ℚ) / 3 + 1 / 2 = 403 / 6 by ring, Int.floor_eq_iff]
      constructor <;> norm_num
    show min (max (round (((2 : ℕ) : ℚ) / max ((3 : ℕ) : ℚ) 1 * 100)) 0).toNat 100 = 67
    rw [hm, hr]
    decide
  exact ⟨by decide, h2, by rw [h2]; decide⟩

/-- C3 amended: `issue_close_rate` equals
`clamp(floor(issues_closed / max(issues_opened, 1) * 100), 0, 100)` —
truncation rather than rounding to nearest — and always lies within
[0, 100], including when `issues_closed > issues_opened`. -/
theorem issue_close_rate_floor_clamped (issues_opened issues_closed : Nat) :
    issue_close_rate issues_opened issues_closed
        = min (max ⌊(issues_closed : ℚ) / max (issues_opened : ℚ) 1 * 100⌋₊ 0) 100
      ∧ issue_close_rate issues_opened issues_closed ≤ 100 := by
  refine ⟨?_, min_le_right _ _⟩
  have hq : (issues_closed : ℚ) / max (issues_opened : ℚ) 1 * 100
      = ((issues_closed * 100 : ℕ) : ℚ) / ((max issues_opened 1 : ℕ) : ℚ) := by
    push_cast
    ring
  rw [hq, natCast_div_floor]
  simp [issue_close_rate]

/-- C6: `open_issues` equals the truncated difference
`max(issues_opened - issues_closed, 0)` of the two counts, is never
negative, and the spec's end-to-end scenario `issues_opened = 10,
issues_closed = 12` yields `open_issues = 0` and `issue_close_rate = 100`. -/
theorem open_issues_nonneg_spec :
    (∀ issues_opened issues_closed : Nat,
        open_issues issues_opened issues_closed
            = (((issues_opened : Int) - (issues_closed : Int)).toNat : Int)
          ∧ 0 ≤ open_issues issues_opened issues_closed)
      ∧ open_issues 10 12 = 0 ∧ issue_close_rate 10 12 = 100 := by
  refine ⟨fun a b => ⟨?_, le_max_right _ _⟩, by decide, by decide⟩
  rw [open_issues, Int.toNat_eq_max]

/-! ### Fixed-width box rendering (strings modelled as `List Char`) -/

/-- Inner width between the `║` borders. -/
def LINE_WIDTH : Nat := 44

/-- The Python `f"{s:<{w}}"` format: left-justify, padding on the right with
spaces up to width `w` (no-op when `s` is already at least `w` long). -/
def padRight (s : List Char) (w : Nat) : List Char :=
  s ++ List.replicate (w - s.length) ' '

/-- The Python `f"{s:>{w}}"` format for non-negative `w`: right-justify,
padding on the left with spaces. -/
def padLeft (s : List Char) (w : Nat) : List Char :=
  List.replicate (w - s.length) ' ' ++ s

/-- `box_line(content)`: truncate the content to `LINE_WIDTH` when longer,
left-justify it in a `LINE_WIDTH` field, and wrap it in `║` borders. -/
def box_line (content : List Char) : List Char :=
  '║' :: padRight (if content.length > LINE_WIDTH then content.take LINE_WIDTH else content)
      LINE_WIDTH ++ ['║']

/-- `box_stat(label, value)`: `" LABEL:"`, then the value right-justified in
the `available = LINE_WIDTH - len(label_part) - 1` field, then a trailing
space, all passed through `box_line`.  When `available` is negative (a label
longer than `LINE_WIDTH - 3` characters) the Python format expression
`f"{value:>{available}}"` raises `ValueError`, so the result is an `Option`
with `none` on that error path. -/
def box_stat (label value : List Char) : Option (List Char) :=
  let label_part := ' ' :: (label ++ [':'])
  if label_part.length + 1 ≤ LINE_WIDTH then
    some (box_line (label_part ++ padLeft value (LINE_WIDTH - label_part.length - 1) ++ [' ']))
  else none

/-- `create_stat_bar(percent)`: `int((percent / 100) * 20)` filled block
glyphs followed by the complementary empty glyphs (`total_blocks = 20`). -/
def create_stat_bar (percent : Nat) : List Char :=
  List.replicate (percent * 20 / 100) '█' ++ List.replicate (20 - percent * 20 / 100) '░'

/-- The inner field of `box_line` is the truncated content followed by the
space padding. -/
lemma box_line_eq (content : List Char) :
    box_line content
      = '║' :: (content.take LINE_WIDTH ++ List.replicate (LINE_WIDTH - content.length) ' ')
          ++ ['║'] := by
  rw [box_line, padRight]
  by_cases h : content.length > LINE_WIDTH
  · rw [if_pos h]
    have h1 : (content.take LINE_WIDTH).length = LINE_WIDTH := by
      rw [List.length_take]
      omega
    rw [h1]
    have h3 : LINE_WIDTH - content.length = 0 := by omega
    simp [h3]
  · rw [if_neg h]
    have ht : content.take LINE_WIDTH = content := List.take_of_length_le (by omega)
    rw [ht]

/-- The inner field of `box_line` always has length exactly `LINE_WIDTH`. -/
lemma box_line_inner_len (content : List Char) :
    (content.take LINE_WIDTH ++ List.replicate (LINE_WIDTH - content.length) ' ').length
      = LINE_WIDTH := by
  simp only [List.length_append, List.length_take, List.length_replicate]
  omega

/-- Every `box_line` output is a border, an inner field of exactly
`LINE_WIDTH` characters, and a border. -/
lemma box_line_shape (content : List Char) :
    ∃ inner : List Char, box_line content = '║' :: inner ++ ['║'] ∧ inner.length = LINE_WIDTH :=
  ⟨_, box_line_eq content, box_line_inner_len content⟩

/-- C9: every rendered stat line has exactly `LINE_WIDTH` characters between
its two border glyphs: `box_line` truncates oversized content and space-pads
undersized content into an exact `LINE_WIDTH` inner field, and every line
`box_stat` renders goes through `box_line` (for labels so long that the
right-justification width would be negative, the Python code raises and no
line is rendered at all). -/
theorem box_line_fixed_width :
    (∀ content : List Char,
        box_line content
            = '║' :: (content.take LINE_WIDTH
                ++ List.replicate (LINE_WIDTH - content.length) ' ') ++ ['║']
          ∧ (content.take LINE_WIDTH ++ List.replicate (LINE_WIDTH - content.length) ' ').length
              = LINE_WIDTH)
      ∧ ∀ label value : List Char,
          box_stat label value = none
            ∨ ∃ inner : List Char,
                box_stat label value = some ('║' :: inner ++ ['║'])
                  ∧ inner.length = LINE_WIDTH := by
  refine ⟨fun content => ⟨box_line_eq content, box_line_inner_len content⟩,
    fun label value => ?_⟩
  simp only [box_stat]
  by_cases h : (' ' :: (label ++ [':'])).length + 1 ≤ LINE_WIDTH
  · rw [if_pos h]
    right
    obtain ⟨inner, he, hl⟩ := box_line_shape
      (' ' :: (label ++ [':'])
        ++ padLeft value (LINE_WIDTH - (' ' :: (label ++ [':'])).length - 1) ++ [' '])
    exact ⟨inner, by rw [he], hl⟩
  · rw [if_neg h]
    left
    rfl

/-- Filled-then-empty structure: taking the filled count from the bar yields
only filled glyphs. -/
lemma replicate_append_take (n m : Nat) (a b : Char) :
    (List.replicate n a ++ List.replicate m b).take n = List.replicate n a := by
  simp

/-- Filled-then-empty structure: dropping the filled count from the bar
yields only empty glyphs. -/
lemma replicate_append_drop (n m : Nat) (a b : Char) :
    (List.replicate n a ++ List.replicate m b).drop n = List.replicate m b := by
  simp

/-- C8: `create_stat_bar(0)` is 20 empty glyphs, `create_stat_bar(100)` is 20
filled glyphs, and for every percent `p ≤ 100` the bar is exactly
`⌊p / 100 * 20⌋` filled glyphs followed by the complementary empty glyphs,
with total length 20. -/
theorem create_stat_bar_glyphs :
    create_stat_bar 0 = List.replicate 20 '░'
      ∧ create_stat_bar 100 = List.replicate 20 '█'
      ∧ ∀ p : Nat, p ≤ 100 →
          (create_stat_bar p).length = 20
            ∧ (create_stat_bar p).take ⌊(p : ℚ) / 100 * 20⌋₊
                = List.replicate ⌊(p : ℚ) / 100 * 20⌋₊ '█'
            ∧ (create_stat_bar p).drop ⌊(p : ℚ) / 100 * 20⌋₊
                = List.replicate (20 - ⌊(p : ℚ) / 100 * 20⌋₊) '░' := by
  refine ⟨by decide, by decide, fun p hp => ?_⟩
  have hfl : ⌊(p : ℚ) / 100 * 20⌋₊ = p * 20 / 100 := by
    rw [show (p : ℚ) / 100 * 20 = ((p * 20 : ℕ) : ℚ) / ((100 : ℕ) : ℚ) by push_cast; ring,
      natCast_div_floor]
  have hle : p * 20 / 100 ≤ 20 := Nat.div_le_of_le_mul (by omega)
  refine ⟨?_, ?_, ?_⟩
  · show (List.replicate (p * 20 / 100) '█' ++ List.replicate (20 - p * 20 / 100) '░').length = 20
    simp only [List.length_append, List.length_replicate]
    omega
  · rw [hfl]
    exact replicate_append_take _ _ _ _
  · rw [hfl]
    exact replicate_append_drop _ _ _ _

/-- Witness for C8 at `p = 37`: a 7-filled, 13-empty bar of length 20. -/
theorem create_stat_bar_glyphs_witness :
    (37 : Nat) ≤ 100
      ∧ ((create_stat_bar 37).length = 20
          ∧ (create_stat_bar 37).take ⌊((37 : Nat) : ℚ) / 100 * 20⌋₊
              = List.replicate ⌊((37 : Nat) : ℚ) / 100 * 20⌋₊ '█'
          ∧ (create_stat_bar 37).drop ⌊((37 : Nat) : ℚ) / 100 * 20⌋₊
              = List.replicate (20 - ⌊((37 : Nat) : ℚ) / 100 * 20⌋₊) '░') :=
  ⟨by norm_num, create_stat_bar_glyphs.2.2 37 (by norm_num)⟩

end Pokedex

namespace Pokedex

/-! ### Card crossfade animation -/

/-- `CARD_DISPLAY_SECONDS = 6`: how long each card is visible. -/
def CARD_DISPLAY_SECONDS : ℚ := 6

/-- `FADE_SECONDS = 0.4`: crossfade duration between cards. -/
def FADE_SECONDS : ℚ := 2 / 5

/-- `NUM_CARDS = 4`. -/
def NUM_CARDS : Nat := 4

/-- `CYCLE_SECONDS = CARD_DISPLAY_SECONDS * NUM_CARDS`. -/
def CYCLE_SECONDS : ℚ := CARD_DISPLAY_SECONDS * (NUM_CARDS : ℚ)

/-- The Python `f"{x:.4f}"` formatting of the keyframe time fractions,
modelled as exact rounding to four decimal places (none of the formatted
values is a tie, so half-up rounding agrees with the float formatting). -/
def fmt4 (x : ℚ) : ℚ := (⌊x * 10000 + 1 / 2⌋ : ℚ) / 10000

/-- `card_animation(card_index)`: the SMIL `values` and `keyTimes` lists of a
card's opacity animation, with the first card starting visible and the last
card fading out exactly at the cycle end. -/
def card_animation (card_index : Nat) : List ℚ × List ℚ :=
  let fade_frac := FADE_SECONDS / CYCLE_SECONDS
  let card_frac := CARD_DISPLAY_SECONDS / CYCLE_SECONDS
  let start := (card_index : ℚ) * card_frac
  let stop := start + card_frac
  let fade_in_start := start
  let fade_in_end := start + fade_frac
  let fade_out_start := stop - fade_frac
  let fade_out_end := stop
  if card_index = 0 then
    ([1, 1, 0, 0, 1], [0, fmt4 fade_out_start, fmt4 fade_out_end, fmt4 (1 - fade_frac), 1])
  else if card_index = NUM_CARDS - 1 then
    ([0, 0, 1, 1, 0], [0, fmt4 fade_in_start, fmt4 fade_in_end, fmt4 fade_out_start, 1])
  else
    ([0, 0, 1, 1, 0, 0],
      [0, fmt4 fade_in_start, fmt4 fade_in_end, fmt4 fade_out_start, fmt4 fade_out_end, 1])

/-- Piecewise-linear sampling of an SMIL `animate` (default
`calcMode="linear"`): interpolate between consecutive `(keyTime, value)`
pairs, clamping to the first and last values outside the keyframe range. -/
def interpKeyframes : List (ℚ × ℚ) → ℚ → ℚ
  | [], _ => 0
  | [(_, v)], _ => v
  | (t0, v0) :: (t1, v1) :: rest, t =>
    if t ≤ t0 then v0
    else if t ≤ t1 then v0 + (v1 - v0) * ((t - t0) / (t1 - t0))
    else interpKeyframes ((t1, v1) :: rest) t

/-- The opacity of card `i` at normalized cycle time `t`. -/
def cardOpacity (i : Nat) (t : ℚ) : ℚ :=
  interpKeyframes ((card_animation i).2.zip (card_animation i).1) t

lemma card_animation_0 :
    card_animation 0 = ([1, 1, 0, 0, 1], [0, 2333 / 10000, 1 / 4, 9833 / 10000, 1]) := by
  norm_num [card_animation, fmt4, FADE_SECONDS, CARD_DISPLAY_SECONDS, CYCLE_SECONDS, NUM_CARDS]

lemma card_animation_1 :
    card_animation 1
      = ([0, 0, 1, 1, 0, 0], [0, 1 / 4, 2667 / 10000, 4833 / 10000, 1 / 2, 1]) := by
  norm_num [card_animation, fmt4, FADE_SECONDS, CARD_DISPLAY_SECONDS, CYCLE_SECONDS, NUM_CARDS]

lemma card_animation_2 :
    card_animation 2
      = ([0, 0, 1, 1, 0, 0], [0, 1 / 2, 5167 / 10000, 7333 / 10000, 3 / 4, 1]) := by
  norm_num [card_animation, fmt4, FADE_SECONDS, CARD_DISPLAY_SECONDS, CYCLE_SECONDS, NUM_CARDS]

lemma card_animation_3 :
    card_animation 3
      = ([0, 0, 1, 1, 0], [0, 3 / 4, 7667 / 10000, 9833 / 10000, 1]) := by
  norm_num [card_animation, fmt4, FADE_SECONDS, CARD_DISPLAY_SECONDS, CYCLE_SECONDS, NUM_CARDS]

end Pokedex

namespace Pokedex

/-- C4 (code bug): at `t = 1/4` — the boundary of card 0's and card 1's
slices, the midpoint of their crossfade window — all four cards have opacity
0: card 0 has fully faded out before card 1 begins fading in, so the
interior fades are sequential, not simultaneous.  At the midpoint of card
0's fade-out (`t = 4833/20000`) only card 0 has partial opacity and every
other card is 0; only the cycle-end crossfade (`t = 19833/20000`) shows two
cards with partial, complementary opacity as the claim describes. -/
theorem crossfade_midpoint_all_dark :
    (cardOpacity 0 (1 / 4) = 0 ∧ cardOpacity 1 (1 / 4) = 0
        ∧ cardOpacity 2 (1 / 4) = 0 ∧ cardOpacity 3 (1 / 4) = 0)
      ∧ (cardOpacity 0 (4833 / 20000) = 1 / 2 ∧ cardOpacity 1 (4833 / 20000) = 0
          ∧ cardOpacity 2 (4833 / 20000) = 0 ∧ cardOpacity 3 (4833 / 20000) = 0)
      ∧ (cardOpacity 3 (19833 / 20000) = 1 / 2 ∧ cardOpacity 0 (19833 / 20000) = 1 / 2) := by
  have e0 : ∀ t : ℚ, cardOpacity 0 t
      = interpKeyframes
          [(0, 1), (2333 / 10000, 1), (1 / 4, 0), (9833 / 10000, 0), (1, 1)] t := by
    intro t
    rw [cardOpacity, card_animation_0]
    rfl
  have e1 : ∀ t : ℚ, cardOpacity 1 t
      = interpKeyframes
          [(0, 0), (1 / 4, 0), (2667 / 10000, 1), (4833 / 10000, 1), (1 / 2, 0), (1, 0)] t := by
    intro t
    rw [cardOpacity, card_animation_1]
    rfl
  have e2 : ∀ t : ℚ, cardOpacity 2 t
      = interpKeyframes
          [(0, 0), (1 / 2, 0), (5167 / 10000, 1), (7333 / 10000, 1), (3 / 4, 0), (1, 0)] t := by
    intro t
    rw [cardOpacity, card_animation_2]
    rfl
  have e3 : ∀ t : ℚ, cardOpacity 3 t
      = interpKeyframes
          [(0, 0), (3 / 4, 0), (7667 / 10000, 1), (9833 / 10000, 1), (1, 0)] t := by
    intro t
    rw [cardOpacity, card_animation_3]
    rfl
  refine ⟨⟨?_, ?_, ?_, ?_⟩, ⟨?_, ?_, ?_, ?_⟩, ⟨?_, ?_⟩⟩
  · rw [e0]; norm_num [interpKeyframes]
  · rw [e1]; norm_num [interpKeyframes]
  · rw [e2]; norm_num [interpKeyframes]
  · rw [e3]; norm_num [interpKeyframes]
  · rw [e0]; norm_num [interpKeyframes]
  · rw [e1]; norm_num [interpKeyframes]
  · rw [e2]; norm_num [interpKeyframes]
  · rw [e3]; norm_num [interpKeyframes]
  · rw [e3]; norm_num [interpKeyframes]
  · rw [e0]; norm_num [interpKeyframes]

end Pokedex
